import Mathlib

/-!
Verification of the CSV serialization core of `react-csv-exporter`
(`src/exportToCSV.ts`, `src/useCSVExporter.ts`).

JavaScript strings are modelled as `List Char`; `String.prototype.includes`
becomes `hasSubstr`, `Array.prototype.join` becomes `List.intercalate`.
Scalar cell values (string / number / boolean / null / undefined) are the
inductive `CSVValue`.  The browser-only download trigger (Blob / object URL /
link click) is abstracted into the `delivered` field of `ExportOutcome`:
`delivered = some (finalCsv, finalFilename)` means the trigger was reached
with that payload and filename.  The clock (`new Date().toISOString()`) is an
explicit `nowISO : List Char` argument.
-/

namespace CSVExporter

/-- A JavaScript string, modelled as its list of characters. -/
abbrev JStr := List Char

/-- Coerce a Lean string literal to the `List Char` model. -/
def js (s : String) : JStr := s.data

/-- `leadsWith pat l` holds when `pat` occurs at the very start of `l`
(JS `String.prototype.startsWith`). -/
def leadsWith : JStr → JStr → Bool
  | [], _ => true
  | _ :: _, [] => false
  | a :: as, b :: bs => a == b && leadsWith as bs

/-- `hasSubstr needle hay` models JS `hay.includes(needle)`. -/
def hasSubstr (needle : JStr) : JStr → Bool
  | [] => needle.isEmpty
  | c :: t => leadsWith needle (c :: t) || hasSubstr needle t

/-- `tailIs pat l` holds when `pat` occurs at the very end of `l`
(JS `String.prototype.endsWith`). -/
def tailIs (pat l : JStr) : Bool := leadsWith pat.reverse l.reverse

/-- A scalar-ish cell value as it occurs in an exported record:
null, undefined, a string, an (integral) number, or a boolean. -/
inductive CSVValue where
  | nullV
  | undefV
  | strV (s : JStr)
  | numV (n : Int)
  | boolV (b : Bool)
deriving DecidableEq

/-- JS `String(value)` on the scalar values of the model (only reached for
non-null, non-undefined values inside `escapeCSVValue`). -/
def stringOf : CSVValue → JStr
  | .nullV => js "null"
  | .undefV => js "undefined"
  | .strV s => s
  | .numV n => js (toString n)
  | .boolV b => js (toString b)

/-- `stringValue.replace(/"/g, '""')`: double every double-quote character. -/
def escapeQuotes : JStr → JStr
  | [] => []
  | c :: t => if c == '"' then '"' :: '"' :: escapeQuotes t else c :: escapeQuotes t

/-- The quoted cell form: the string wrapped in double quotes with every
embedded double quote doubled. -/
def quotedForm (sv : JStr) : JStr := '"' :: (escapeQuotes sv ++ ['"'])

/-- Embedding of `escapeCSVValue` (src/exportToCSV.ts, lines 21–33):
null/undefined yield the empty string; otherwise the stringified value is
quoted whenever quoting is forced or the string contains the delimiter,
a double quote, or a newline. -/
def escapeCSVValue (value : CSVValue) (quoteValues : Bool) (delimiter : JStr) : JStr :=
  match value with
  | .nullV => []
  | .undefV => []
  | v =>
    let sv := stringOf v
    if quoteValues || hasSubstr delimiter sv || hasSubstr ['"'] sv || hasSubstr ['\n'] sv then
      quotedForm sv
    else
      sv

/-- A record (one exportable row): an ordered mapping from field name to
scalar value, as a JS object literal. -/
abbrev CSVRecord := List (JStr × CSVValue)

/-- JS property read `row[key]`: a missing property is `undefined`. -/
def getField (row : CSVRecord) (key : JStr) : CSVValue :=
  match row.find? (fun p => p.1 == key) with
  | some p => p.2
  | none => .undefV

/-- A formatter, `(value: any) => string` in the declared type but, at
runtime, a JS function that may return any value (in particular a nullish
one, which `?? raw` then discards). -/
abbrev Formatter := CSVValue → CSVValue

/-- `formatters[key]?.(raw) ?? raw`: apply the formatter when registered;
a nullish formatter result (or an absent formatter) falls back to `raw`. -/
def applyFmt (f? : Option Formatter) (raw : CSVValue) : CSVValue :=
  match f? with
  | none => raw
  | some f =>
    match f raw with
    | .nullV => raw
    | .undefV => raw
    | v => v

/-- One finished cell: format (`applyFmt`), then escape (`escapeCSVValue`),
as in the `data.map` body of `exportToCSV`. -/
def cellOf (f? : Option Formatter) (raw : CSVValue) (quoteValues : Bool)
    (delimiter : JStr) : JStr :=
  escapeCSVValue (applyFmt f? raw) quoteValues delimiter

/-- `useKeysAsHeader ? keys.map(String) : (labels || keys.map(String))`
(field selectors are already strings in the model, so `map String` is the
identity). -/
def headerRowOf (useKeysAsHeader : Bool) (keys : List JStr)
    (labels : Option (List JStr)) : List JStr :=
  if useKeysAsHeader then keys else labels.getD keys

/-- `filename.replace(/\.csv$/, '')`: remove one trailing `.csv` if present. -/
def dropCsvExt (fn : JStr) : JStr :=
  if tailIs (js ".csv") fn then fn.take (fn.length - 4) else fn

/-- `new Date().toISOString().slice(0, 19).replace(/:/g, '-')` applied to the
current instant's ISO string. -/
def tsToken (nowISO : JStr) : JStr :=
  (nowISO.take 19).map (fun c => if c == ':' then '-' else c)

/-- The final filename (src/exportToCSV.ts, lines 81–83). -/
def finalNameOf (filename : JStr) (addTimestamp : Bool) (nowISO : JStr) : JStr :=
  if addTimestamp then dropCsvExt filename ++ ['-'] ++ tsToken nowISO ++ js ".csv"
  else filename

/-- The options record of `exportToCSV`, with the source's defaults.
`data` is `Option`al so that an absent (`undefined`) collection — caught by
the `!data` half of the guard — is representable.  Callbacks carry no
information beyond being invoked, so they are not stored here; the outcome
records whether their call sites were reached. -/
structure CSVExportOptions where
  data : Option (List CSVRecord)
  filename : JStr := js "export.csv"
  headers : Option (List JStr) := none
  labels : Option (List JStr) := none
  includeBOM : Bool := false
  delimiter : JStr := [',']
  formatters : JStr → Option Formatter := fun _ => none
  quoteValues : Bool := true
  addTimestamp : Bool := false
  newline : JStr := ['\n']
  prependRows : List (List JStr) := []
  appendRows : List (List JStr) := []
  useKeysAsHeader : Bool := false
  includeHeader : Bool := true

/-- The observable outcome of one `exportToCSV` call: whether the
`onExportStart?.()` and `onExportComplete?.()` call sites were reached, and
the payload handed to the download trigger (`none` when the trigger was
never reached). -/
structure ExportOutcome where
  startCalled : Bool
  completeCalled : Bool
  delivered : Option (JStr × JStr)
deriving DecidableEq

/-- The field selectors: `headers || Object.keys(data[0])`. -/
def keysOf (headers : Option (List JStr)) (data : List CSVRecord) : List JStr :=
  headers.getD ((data.headD []).map (·.1))

/-- One data row: each resolved field formatted and escaped, joined by the
delimiter. -/
def dataRowOf (o : CSVExportOptions) (keys : List JStr) (row : CSVRecord) : JStr :=
  List.intercalate o.delimiter
    (keys.map (fun key => cellOf (o.formatters key) (getField row key) o.quoteValues o.delimiter))

/-- Embedding of `exportToCSV` (src/exportToCSV.ts, lines 35–97).  The
empty/absent-data guard short-circuits before any callback or content
construction; otherwise the content rows are prepend rows, the header row
(when enabled), one row per record, and append rows, joined by the
configured newline, with an optional BOM prefix, and the filename is
optionally timestamped from `nowISO`. -/
def exportToCSV (o : CSVExportOptions) (nowISO : JStr) : ExportOutcome :=
  match o.data with
  | none => ⟨false, false, none⟩
  | some data =>
    if data.isEmpty then ⟨false, false, none⟩
    else
      let keys := keysOf o.headers data
      let headerRow := headerRowOf o.useKeysAsHeader keys o.labels
      let csvRows := data.map (dataRowOf o keys)
      let contentRows :=
        o.prependRows.map (List.intercalate o.delimiter)
          ++ (if o.includeHeader then [List.intercalate o.delimiter headerRow] else [])
          ++ csvRows
          ++ o.appendRows.map (List.intercalate o.delimiter)
      let content := List.intercalate o.newline contentRows
      let finalCsv := (if o.includeBOM then ['\uFEFF'] else []) ++ content
      ⟨true, true, some (finalCsv, finalNameOf o.filename o.addTimestamp nowISO)⟩

/-- The hook `useCSVExporter` returns a callable forwarding its argument
unchanged to `exportToCSV` (src/useCSVExporter.ts). -/
def useCSVExporter : CSVExportOptions → JStr → ExportOutcome :=
  fun options => exportToCSV options

/-- The unescaper named by the round-trip property (spec §8): strip the
surrounding double quotes, then replace each doubled internal double quote
by a single one.  Not part of the source; it is the inverse operation the
spec's round-trip claim describes. -/
def collapseQuotes : JStr → JStr
  | [] => []
  | [c] => [c]
  | a :: b :: t =>
    if a == '"' && b == '"' then '"' :: collapseQuotes t
    else a :: collapseQuotes (b :: t)

/-- Strip one leading and one trailing character (the surrounding quotes),
then collapse doubled quotes. -/
def unescapeCSV (l : JStr) : JStr := collapseQuotes (l.drop 1).dropLast

/-- A sample record used to instantiate witnesses. -/
def sampleRecord : CSVRecord := [(js "name", .strV (js "John Doe")), (js "age", .numV 30)]

/-- Sample options: one record, all other options at their defaults. -/
def sampleOpts : CSVExportOptions := { data := some [sampleRecord] }

/-- `hasSubstr` with a one-character needle is membership. -/
theorem hasSubstr_single_iff (c : Char) (l : JStr) :
    hasSubstr [c] l = true ↔ c ∈ l := by
  induction l with
  | nil => simp [hasSubstr]
  | cons x t ih =>
    have h1 : hasSubstr [c] (x :: t) = ((c == x) && true || hasSubstr [c] t) := rfl
    rw [h1, Bool.and_true, Bool.or_eq_true, List.mem_cons]
    simp [ih, beq_iff_eq]

/-- `escapeQuotes` sends only the empty string to the empty string. -/
theorem escapeQuotes_eq_nil_iff (s : JStr) : escapeQuotes s = [] ↔ s = [] := by
  cases s with
  | nil => simp [escapeQuotes]
  | cons c t =>
    simp only [escapeQuotes]
    split <;> simp

/-- Collapsing doubled quotes undoes doubling of quotes. -/
theorem collapseQuotes_escapeQuotes (s : JStr) :
    collapseQuotes (escapeQuotes s) = s := by
  induction s with
  | nil => rfl
  | cons c t ih =>
    by_cases hc : c = '"'
    · subst hc
      simp [escapeQuotes, collapseQuotes, ih]
    · have hce : (c == '"') = false := by simp [hc]
      simp only [escapeQuotes, hce, Bool.false_eq_true, if_false]
      cases h : escapeQuotes t with
      | nil =>
        have ht : t = [] := (escapeQuotes_eq_nil_iff t).mp h
        subst ht
        rfl
      | cons b t' =>
        simp only [collapseQuotes, hce, Bool.false_and, Bool.false_eq_true, if_false]
        rw [← h, ih]

/-- Unescaping the quoted form recovers the original string. -/
theorem unescape_quotedForm (sv : JStr) : unescapeCSV (quotedForm sv) = sv := by
  unfold unescapeCSV quotedForm
  rw [List.drop_one, List.tail_cons, List.dropLast_concat]
  exact collapseQuotes_escapeQuotes sv

/-- On a non-null, non-undefined value, `escapeCSVValue` is the quote-rule
conditional on the stringified value. -/
theorem escapeCSVValue_eq_ite (v : CSVValue) (hn : v ≠ .nullV) (hu : v ≠ .undefV)
    (q : Bool) (d : JStr) :
    escapeCSVValue v q d =
      if q || hasSubstr d (stringOf v) || hasSubstr ['"'] (stringOf v)
          || hasSubstr ['\n'] (stringOf v)
      then quotedForm (stringOf v) else stringOf v := by
  cases v with
  | nullV => exact absurd rfl hn
  | undefV => exact absurd rfl hu
  | strV s => rfl
  | numV n => rfl
  | boolV b => rfl

/-- C2: with an absent or empty record collection, `exportToCSV` is a pure
no-op: no callback call site is reached and nothing is delivered to the
download trigger. -/
theorem empty_input_noop (o : CSVExportOptions) (now : JStr)
    (h : o.data = none ∨ o.data = some []) :
    exportToCSV o now = ⟨false, false, none⟩ := by
  rcases h with h | h <;> simp [exportToCSV, h]

/-- Witness for C2 at `data := some []`. -/
theorem empty_input_noop_witness :
    (({ data := some [] } : CSVExportOptions).data = none ∨
      ({ data := some [] } : CSVExportOptions).data = some []) ∧
    exportToCSV { data := some [] } [] = ⟨false, false, none⟩ :=
  ⟨Or.inr rfl, empty_input_noop { data := some [] } [] (Or.inr rfl)⟩

/-- C5: with timestamping enabled, the final filename is the configured
filename with one trailing `.csv` removed, a hyphen, the ISO instant cut to
seconds with colons turned into hyphens, and `.csv` re-appended; in
particular `test.csv` at `2023-12-25T10:30:45.123Z` becomes
`test-2023-12-25T10-30-45.csv`. -/
theorem timestamped_filename :
    (∀ (fn now : JStr), finalNameOf fn true now =
      dropCsvExt fn ++ ['-'] ++ tsToken now ++ js ".csv") ∧
    finalNameOf (js "test.csv") true (js "2023-12-25T10:30:45.123Z") =
      js "test-2023-12-25T10-30-45.csv" :=
  ⟨fun _ _ => rfl, by decide⟩

/-- C6: with `useKeysAsHeader` the header row is the field-selector list,
labels notwithstanding; without it, the label list when supplied, else the
field selectors; and the selectors are the explicit headers when supplied,
else the first record's keys. -/
theorem header_row_resolution (keys ks : List JStr) (labels : List JStr)
    (data : List CSVRecord) :
    headerRowOf true keys (some labels) = keys ∧
    headerRowOf true keys none = keys ∧
    headerRowOf false keys (some labels) = labels ∧
    headerRowOf false keys none = keys ∧
    keysOf (some ks) data = ks ∧
    keysOf none data = (data.headD []).map (·.1) :=
  ⟨rfl, rfl, rfl, rfl, rfl, rfl⟩

/-- Counterexample to C7: with selectors `["a","b"]` and the shorter label
list `["X"]` (and `useKeysAsHeader` off), the header row is `["X"]`, not
the fallback `["a","b"]` the claim requires. -/
theorem short_labels_cex :
    headerRowOf false [js "a", js "b"] (some [js "X"]) = [js "X"] ∧
    [js "X"] ≠ [js "a", js "b"] :=
  ⟨rfl, by decide⟩

/-- C7 (amended): a supplied label list is used as-is, whatever its length;
the fallback to the stringified selectors happens only when no label list
is supplied. -/
theorem short_labels_used_as_is (keys ls : List JStr) :
    headerRowOf false keys (some ls) = ls ∧
    headerRowOf false keys none = keys :=
  ⟨rfl, rfl⟩

/-- C9: two runs of the serializer on identical options and the same clock
instant deliver identical payloads (byte-identical CSV text and identical
filename). -/
theorem export_deterministic (o : CSVExportOptions) (now : JStr)
    (r₁ r₂ : ExportOutcome)
    (h₁ : r₁ = exportToCSV o now) (h₂ : r₂ = exportToCSV o now) :
    r₁.delivered = r₂.delivered := by
  subst h₁ h₂
  rfl

/-- Witness for C9 on the sample options. -/
theorem export_deterministic_witness :
    exportToCSV sampleOpts [] = exportToCSV sampleOpts [] ∧
    (exportToCSV sampleOpts []).delivered = (exportToCSV sampleOpts []).delivered :=
  ⟨rfl, export_deterministic sampleOpts [] _ _ rfl rfl⟩

/-- C10: under forced quoting, an empty-string value renders as the
two-character cell `""`, while null and undefined — short-circuited before
the quoting rule — render as the zero-length cell under every setting. -/
theorem forced_quoting_empty_vs_null (q : Bool) (d : JStr) :
    escapeCSVValue (.strV []) true d = ['"', '"'] ∧
    escapeCSVValue .nullV q d = [] ∧
    escapeCSVValue .undefV q d = [] :=
  ⟨rfl, rfl, rfl⟩

/-- C1: for a (non-null, non-undefined) value reaching the quote step, the
cell is the quoted-and-doubled form exactly when quoting is forced on, or
the stringified value contains the delimiter, a double quote, or a
newline; so with `quoteValues` off an unsafe value is still quoted. -/
theorem quote_rule_iff (v : CSVValue) (q : Bool) (d : JStr)
    (hn : v ≠ .nullV) (hu : v ≠ .undefV) :
    escapeCSVValue v q d = quotedForm (stringOf v) ↔
      (q = true ∨ hasSubstr d (stringOf v) = true ∨
        hasSubstr ['"'] (stringOf v) = true ∨
        hasSubstr ['\n'] (stringOf v) = true) := by
  rw [escapeCSVValue_eq_ite v hn hu q d]
  by_cases hcond : (q || hasSubstr d (stringOf v) || hasSubstr ['"'] (stringOf v)
      || hasSubstr ['\n'] (stringOf v)) = true
  · rw [if_pos hcond]
    simp only [Bool.or_eq_true] at hcond
    constructor
    · intro _
      tauto
    · intro _
      rfl
  · rw [if_neg hcond]
    simp only [Bool.or_eq_true, not_or] at hcond
    obtain ⟨⟨⟨h1, h2⟩, h3⟩, h4⟩ := hcond
    constructor
    · intro hEq
      exfalso
      have hmem : '"' ∈ stringOf v := by
        rw [hEq]
        exact List.mem_cons_self _ _
      exact h3 ((hasSubstr_single_iff '"' (stringOf v)).mpr hmem)
    · intro hOr
      exfalso
      tauto

/-- Witness for C1: with quoting off, the value `a,b` under delimiter `,`
satisfies the quote rule. -/
theorem quote_rule_iff_witness :
    (CSVValue.strV (js "a,b") ≠ CSVValue.nullV) ∧
    (CSVValue.strV (js "a,b") ≠ CSVValue.undefV) ∧
    (escapeCSVValue (.strV (js "a,b")) false (js ",") =
        quotedForm (stringOf (.strV (js "a,b"))) ↔
      (false = true ∨ hasSubstr (js ",") (stringOf (.strV (js "a,b"))) = true ∨
        hasSubstr ['"'] (stringOf (.strV (js "a,b"))) = true ∨
        hasSubstr ['\n'] (stringOf (.strV (js "a,b"))) = true)) :=
  ⟨by decide, by decide, quote_rule_iff _ false (js ",") (by decide) (by decide)⟩

/-- Counterexample to C3: a formatter registered for a field is applied
even to a null raw value; with the formatter returning `N/A` the cell is
the five characters `"N/A"`, not the empty string the claim requires. -/
theorem formatter_on_null_cex :
    cellOf (some (fun _ => .strV (js "N/A"))) .nullV true (js ",") = js "\"N/A\"" ∧
    js "\"N/A\"" ≠ ([] : JStr) :=
  ⟨rfl, by decide⟩

/-- C3 (amended): the cell is the empty string (never the literal `null`
or `undefined`) whenever the effective value — the formatter's result when
one is registered and returns non-nullish, the raw value otherwise — is
null or undefined. -/
theorem nullish_cell_empty (f? : Option Formatter) (raw : CSVValue)
    (q : Bool) (d : JStr)
    (h : applyFmt f? raw = .nullV ∨ applyFmt f? raw = .undefV) :
    cellOf f? raw q d = [] := by
  rcases h with h | h <;> (unfold cellOf; rw [h]; rfl)

/-- Witness for C3 (amended): a null field with no registered formatter
yields the empty cell. -/
theorem nullish_cell_empty_witness :
    (applyFmt none CSVValue.nullV = CSVValue.nullV ∨
      applyFmt none CSVValue.nullV = CSVValue.undefV) ∧
    cellOf none CSVValue.nullV true [','] = [] :=
  ⟨Or.inl rfl, nullish_cell_empty none .nullV true [','] (Or.inl rfl)⟩

/-- C4: on non-empty input the delivered text is the optional BOM followed
by — joined with the configured newline — the prepend rows (cells joined
verbatim by the delimiter), the header row when enabled, one escaped row
per record in input order, and the append rows. -/
theorem document_body_layout (o : CSVExportOptions) (now : JStr)
    (rows : List CSVRecord)
    (hd : o.data = some rows) (hne : rows ≠ []) :
    (exportToCSV o now).delivered = some
      ((if o.includeBOM then ['\uFEFF'] else []) ++
        List.intercalate o.newline
          (o.prependRows.map (List.intercalate o.delimiter)
            ++ (if o.includeHeader then
                  [List.intercalate o.delimiter
                    (headerRowOf o.useKeysAsHeader (keysOf o.headers rows) o.labels)]
                else [])
            ++ rows.map (dataRowOf o (keysOf o.headers rows))
            ++ o.appendRows.map (List.intercalate o.delimiter)),
        finalNameOf o.filename o.addTimestamp now) := by
  cases rows with
  | nil => exact absurd rfl hne
  | cons r rs => simp [exportToCSV, hd]

/-- Witness for C4 on the sample options. -/
theorem document_body_layout_witness :
    (sampleOpts.data = some [sampleRecord] ∧
      [sampleRecord] ≠ ([] : List CSVRecord)) ∧
    (exportToCSV sampleOpts []).delivered = some
      ((if sampleOpts.includeBOM then ['\uFEFF'] else []) ++
        List.intercalate sampleOpts.newline
          (sampleOpts.prependRows.map (List.intercalate sampleOpts.delimiter)
            ++ (if sampleOpts.includeHeader then
                  [List.intercalate sampleOpts.delimiter
                    (headerRowOf sampleOpts.useKeysAsHeader
                      (keysOf sampleOpts.headers [sampleRecord]) sampleOpts.labels)]
                else [])
            ++ [sampleRecord].map (dataRowOf sampleOpts (keysOf sampleOpts.headers [sampleRecord]))
            ++ sampleOpts.appendRows.map (List.intercalate sampleOpts.delimiter)),
        finalNameOf sampleOpts.filename sampleOpts.addTimestamp []) :=
  ⟨⟨rfl, by decide⟩, document_body_layout sampleOpts [] [sampleRecord] rfl (by decide)⟩

/-- C8: escaping a (non-null, non-undefined) value whose stringification
contains the delimiter, a double quote, or a newline, then unescaping
(strip the surrounding quotes, collapse doubled quotes) recovers the
stringified value exactly. -/
theorem escape_unescape_roundtrip (v : CSVValue) (q : Bool) (d : JStr)
    (hn : v ≠ .nullV) (hu : v ≠ .undefV)
    (h : hasSubstr d (stringOf v) = true ∨ hasSubstr ['"'] (stringOf v) = true ∨
      hasSubstr ['\n'] (stringOf v) = true) :
    unescapeCSV (escapeCSVValue v q d) = stringOf v := by
  have hcond : (q || hasSubstr d (stringOf v) || hasSubstr ['"'] (stringOf v)
      || hasSubstr ['\n'] (stringOf v)) = true := by
    rcases h with h | h | h <;> simp [h]
  rw [escapeCSVValue_eq_ite v hn hu, if_pos hcond]
  exact unescape_quotedForm (stringOf v)

/-- Witness for C8 on the value `a,b` with delimiter `,` and quoting off. -/
theorem escape_unescape_roundtrip_witness :
    (CSVValue.strV (js "a,b") ≠ CSVValue.nullV) ∧
    (CSVValue.strV (js "a,b") ≠ CSVValue.undefV) ∧
    (hasSubstr (js ",") (stringOf (.strV (js "a,b"))) = true ∨
      hasSubstr ['"'] (stringOf (.strV (js "a,b"))) = true ∨
      hasSubstr ['\n'] (stringOf (.strV (js "a,b"))) = true) ∧
    unescapeCSV (escapeCSVValue (.strV (js "a,b")) false (js ",")) =
      stringOf (.strV (js "a,b")) :=
  ⟨by decide, by decide, Or.inl (by decide),
    escape_unescape_roundtrip _ false (js ",") (by decide) (by decide)
      (Or.inl (by decide))⟩

end CSVExporter
